import Mathlib

/-!
Verification of the bitaxe-monitor telemetry core: a shallow embedding of
the session reconstructor, the bucketed aggregator, the variance analyzer,
difficulty parsing, the health/alert state tracker and the clock-config
get-or-create operation, with theorems settling the spec's claims.
-/

namespace BitaxeMonitor

/-! ## Session Reconstructor

Embeds `get_total_uptime` (identical in `dashboard.py` and `api_server.py`):
scan the device's uptime history in timestamp order; a decrease that lands
below `MAX_RESTART_UPTIME = 3600` closes a segment whose maximum joins the
running total; after the scan the last (current) uptime is added.
Timestamps are not consulted by the algorithm, so rows are just the uptime
values in timestamp order. -/

/-- `MAX_RESTART_UPTIME` from the source: 1 hour in seconds. -/
def MAX_RESTART_UPTIME : Int := 3600

/-- Maximum of a segment of uptimes, as `max(session_uptimes)` over a
nonempty Python list; `none` on the empty slice (the `if session_uptimes:`
guard). -/
def segMax : List Int → Option Int
  | [] => none
  | u :: us => some (us.foldl max u)

/-- State of the scan loop: `(prev_uptime, session_start_idx, total_uptime)`. -/
structure UptimeScanState where
  prev : Int
  sessionStart : Nat
  total : Int
deriving Repr, DecidableEq

/-- One iteration of the `for i, (uptime, timestamp) in enumerate(rows)` loop. -/
def uptimeScanStep (rows : List Int) (st : UptimeScanState) (p : Nat × Int) :
    UptimeScanState :=
  let i := p.1
  let uptime := p.2
  if uptime < st.prev ∧ uptime < MAX_RESTART_UPTIME then
    let seg := (rows.drop st.sessionStart).take (i - st.sessionStart)
    let total := match segMax seg with
      | some m => st.total + m
      | none => st.total
    { prev := uptime, sessionStart := i, total := total }
  else
    { st with prev := uptime }

/-- The scan over all rows, starting from `prev_uptime = 0`,
`session_start_idx = 0`, `total_uptime = 0`. -/
def uptimeScan (rows : List Int) : UptimeScanState :=
  rows.enum.foldl (uptimeScanStep rows) ⟨0, 0, 0⟩

/-- `get_total_uptime`: `none` on an empty history, otherwise
`(session_hours, total_hours)` where `session_hours = current/3600` for the
last row's uptime and `total_hours = (scan total + current)/3600`. -/
def get_total_uptime (rows : List Int) : Option (ℚ × ℚ) :=
  match rows with
  | [] => none
  | r :: rs =>
    let current : Int := (r :: rs).getLast (by simp)
    let total : Int := (uptimeScan (r :: rs)).total + current
    some ((current : ℚ) / 3600, (total : ℚ) / 3600)

/-! ## Metrics Store read side

Embeds the read queries of `src/database.py` that the error-handling claim
exercises: `get_latest_metric` (most recent row by timestamp for a device)
and `get_device_health_status` (offline/last-seen/reject-rate derived from
the latest row, with an explicit no-data default). The fact table is a list
of rows; timestamps are poller-assigned seconds. -/

/-- One `performance_metrics` row, restricted to the columns these queries
read. -/
structure MetricRow where
  device_id : String
  timestamp : ℚ
  shares_accepted : ℤ
  shares_rejected : ℤ
deriving Repr, DecidableEq

/-- `get_latest_metric`: the row with the greatest timestamp among the
device's rows (`ORDER BY timestamp DESC LIMIT 1`), `none` when the device
has no rows. -/
def get_latest_metric (rows : List MetricRow) (device : String) : Option MetricRow :=
  (rows.filter (fun r => r.device_id = device)).foldl
    (fun acc r =>
      match acc with
      | none => some r
      | some a => if a.timestamp < r.timestamp then some r else acc)
    none

/-- Result shape of `get_device_health_status`. -/
structure HealthStatus where
  is_online : Bool
  last_seen : Option ℚ
  reject_rate : ℚ
  shares_accepted : ℤ
  shares_rejected : ℤ
deriving Repr, DecidableEq

/-- `get_device_health_status`: offline with no last-seen and a 0 reject
rate when the device has no rows; otherwise online iff the latest row is
within `minutes_threshold` minutes of `now`, with
`reject_rate = rejected/(accepted+rejected)*100` (0 when no shares). -/
def get_device_health_status (rows : List MetricRow) (device : String)
    (now minutes_threshold : ℚ) : HealthStatus :=
  match get_latest_metric rows device with
  | none => ⟨false, none, 0, 0, 0⟩
  | some r =>
    let time_diff := (now - r.timestamp) / 60
    let total := r.shares_accepted + r.shares_rejected
    let reject_rate : ℚ := if 0 < total then (r.shares_rejected : ℚ) / (total : ℚ) * 100 else 0
    ⟨decide (time_diff ≤ minutes_threshold), some r.timestamp, reject_rate,
      r.shares_accepted, r.shares_rejected⟩

/-! ## Difficulty parsing

Embeds `SystemInfo.parse_difficulty` from `src/models.py`: a value that may
be absent, numeric, or a human-formatted string with a K/M/G/T magnitude
suffix. Python strings are handled through their character lists; the
`float()` call is modelled by the decimal-literal fragment (optional sign,
digits, optional fractional part) that the device payloads use. -/

/-- Value of a nonempty digit string, most significant first. -/
def digitsVal (cs : List Char) : ℕ :=
  cs.foldl (fun n c => 10 * n + (c.toNat - 48)) 0

/-- Unsigned decimal literal: digits, or digits `.` digits with at least
one digit present; anything else is a parse failure (`float()` raising
`ValueError`). -/
def parseUnsigned (cs : List Char) : Option ℚ :=
  let p := cs.span (fun c => c.isDigit)
  match p.2 with
  | [] => if p.1.isEmpty then none else some (digitsVal p.1)
  | '.' :: fs =>
    if fs.all (fun c => c.isDigit) ∧ (p.1 ≠ [] ∨ fs ≠ []) then
      some ((digitsVal p.1 : ℚ) + (digitsVal fs : ℚ) / (10 : ℚ) ^ fs.length)
    else none
  | _ => none

/-- Model of Python `float(s)` on the decimal-literal fragment: optional
sign followed by an unsigned decimal. -/
def pyFloatChars (cs : List Char) : Option ℚ :=
  match cs with
  | '+' :: rest => parseUnsigned rest
  | '-' :: rest => (parseUnsigned rest).map Neg.neg
  | cs => parseUnsigned cs

/-- Python `str.strip()`: drop whitespace from both ends. -/
def pyStrip (cs : List Char) : List Char :=
  ((cs.dropWhile (fun c => c.isWhitespace)).reverse.dropWhile
    (fun c => c.isWhitespace)).reverse

/-- Python `str.upper()` on the ASCII payloads the device sends. -/
def pyUpper (cs : List Char) : List Char := cs.map Char.toUpper

/-- Python `str.endswith(c)` for a single-character suffix. -/
def lastIs (cs : List Char) (c : Char) : Bool := cs.getLast? = some c

/-- Input to the validator: Python `None`, a number, or a string. -/
inductive PyVal where
  | vnone
  | vnum (x : ℚ)
  | vstr (s : String)
deriving Repr, DecidableEq

/-- `SystemInfo.parse_difficulty`: `None` and `""` normalize to absent;
numbers pass through; strings are stripped, uppercased, matched against a
K/M/G/T suffix choosing a multiplier, and the remainder is parsed as a
float, with a parse failure normalizing to absent. -/
def parse_difficulty : PyVal → Option ℚ
  | .vnone => none
  | .vnum x => some x
  | .vstr s =>
    if s.data = [] then none
    else
      let u := pyUpper (pyStrip s.data)
      let m : ℚ × List Char :=
        if lastIs u 'K' then ((1000 : ℚ), u.dropLast)
        else if lastIs u 'M' then (1000000, u.dropLast)
        else if lastIs u 'G' then (1000000000, u.dropLast)
        else if lastIs u 'T' then (1000000000000, u.dropLast)
        else (1, u)
      (pyFloatChars (pyStrip m.2)).map (fun x => x * m.1)

/-! ## Bucketed Aggregator

Embeds `get_bucketed_hashrate_trend` from `src/database.py`: the window
anchor is the device's most recent recorded timestamp (`MAX(timestamp)`),
the cutoff is `anchor - minutes`, and each sample with a non-null hashrate
and `timestamp >= cutoff` is assigned
`CAST((anchor - timestamp) / (minutes / buckets) AS INTEGER)` as its bucket,
kept only when that index satisfies `bucket >= 0 AND bucket < buckets`, and
averaged per bucket. Timestamps are modelled in minutes (the SQL converts
julian-day differences to minutes before dividing).
`get_bucketed_temp_trend` shares this bucketing verbatim. -/

/-- SQLite `CAST(x AS INTEGER)`: truncation toward zero. -/
def sqliteCastInt (x : ℚ) : ℤ := if 0 ≤ x then ⌊x⌋ else ⌈x⌉

/-- One sample as seen by the trend query: a timestamp in minutes and an
optional hashrate (`hashrate IS NOT NULL` filters the absent ones). -/
structure TrendRow where
  timestamp : ℚ
  hashrate : Option ℚ
deriving Repr, DecidableEq

/-- `SELECT MAX(timestamp)` over the device's rows. -/
def anchorOf : List TrendRow → Option ℚ
  | [] => none
  | r :: rs =>
    match anchorOf rs with
    | none => some r.timestamp
    | some a => some (max r.timestamp a)

/-- Bucket index of a sample: `CAST((anchor - ts) / bucketWidth AS INTEGER)`
with `bucketWidth = minutes / buckets`. -/
def bucketIdx (anchor bucketWidth ts : ℚ) : ℤ :=
  sqliteCastInt ((anchor - ts) / bucketWidth)

/-- The CTE's rows: non-null hashrate and `timestamp >= cutoff`. -/
def windowRows (rows : List TrendRow) (anchor minutes : ℚ) : List TrendRow :=
  rows.filter (fun r => r.hashrate.isSome ∧ anchor - minutes ≤ r.timestamp)

/-- Number of window samples grouped into bucket `i` by the outer query's
`bucket >= 0 AND bucket < buckets` filter and `GROUP BY bucket`. -/
def bucketCountAt (rows : List TrendRow) (anchor minutes : ℚ) (buckets : ℕ)
    (i : ℕ) : ℕ :=
  ((windowRows rows anchor minutes).filter
    (fun r => bucketIdx anchor (minutes / buckets) r.timestamp = (i : ℤ))).length

/-- `AVG(hashrate)` of bucket `i`, absent when the bucket got no samples. -/
def bucketAvgAt (rows : List TrendRow) (anchor minutes : ℚ) (buckets : ℕ)
    (i : ℕ) : Option ℚ :=
  let hs := ((windowRows rows anchor minutes).filter
    (fun r => bucketIdx anchor (minutes / buckets) r.timestamp = (i : ℤ))).filterMap
    (fun r => r.hashrate)
  match hs with
  | [] => none
  | _ => some (hs.sum / (hs.length : ℚ))

/-- `get_bucketed_hashrate_trend`: per-bucket averages listed from bucket
`buckets - 1` down to 0 (oldest first); `now` is the wall-clock fallback
anchor used only when the device has no rows at all. -/
def get_bucketed_hashrate_trend (rows : List TrendRow) (now minutes : ℚ)
    (buckets : ℕ) : List (Option ℚ) :=
  let anchor := (anchorOf rows).getD now
  ((List.range buckets).reverse).map (fun i => bucketAvgAt rows anchor minutes buckets i)

/-! ## Stability/Variance Analyzer

Embeds the per-timeframe body of `get_multi_timeframe_variance`
(`dashboard.py`): given the bucketed hashrate averages of one timeframe,
report `variance_pct = (max - min) / avg * 100` (0 when the average is not
positive) rounded to one decimal, together with the bucket count, or `None`
when fewer than two bucket values are available. -/

/-- Python `round(x, 1)`: round half to even at the first decimal. -/
def pyRound1 (x : ℚ) : ℚ :=
  let y := x * 10
  let f := ⌊y⌋
  let r := y - (f : ℚ)
  let n : ℤ :=
    if r < 1 / 2 then f
    else if 1 / 2 < r then f + 1
    else if f % 2 = 0 then f else f + 1
  (n : ℚ) / 10

/-- `sum(hashrates) / len(hashrates)`, the `avg_hr` of the source. -/
def bucketsMean (l : List ℚ) : ℚ := l.sum / (l.length : ℚ)

/-- One timeframe of `get_multi_timeframe_variance`: `None` unless the
bucket list has more than one entry, else the rounded variance percentage
and the sample count. -/
def variance_for_timeframe : List ℚ → Option (ℚ × ℕ)
  | [] => none
  | x :: xs =>
    if 1 < (x :: xs).length then
      let mn := xs.foldl min x
      let mx := xs.foldl max x
      let avg := bucketsMean (x :: xs)
      let pct := if 0 < avg then (mx - mn) / avg * 100 else 0
      some (pyRound1 pct, (x :: xs).length)
    else none

/-! ## Health/Alert State Tracker

Embeds the alert checks of `src/discord/bot.py`. `check_offline_miners`
diffs the current offline set against the stored one, alerting on entry
and announcing recovery on exit, then replaces the stored set
(`check_overheating` follows the identical set-diff discipline).
`check_highest_diff` keeps a fleet-wide high-water mark seeded at startup
by `initialize_highest_diff` from the Store's `MAX(best_diff)`. Health data
is a list of `(device_id, is_online)` pairs in iteration order. -/

/-- Devices reported offline by the current check, in iteration order. -/
def currentOffline (health : List (String × Bool)) : List String :=
  (health.filter (fun p => !p.2)).map Prod.fst

/-- One run of `check_offline_miners`: returns
`(alerts, recovered, new stored set)` — alerts for devices offline now but
not in the stored set, recoveries for stored devices no longer offline, and
the current set as the new stored set. -/
def offlineStep (prev : List String) (health : List (String × Bool)) :
    List String × List String × List String :=
  let current := currentOffline health
  let alerts := current.filter (fun d => ¬ d ∈ prev)
  let recovered := prev.filter (fun d => ¬ d ∈ current)
  (alerts, recovered, current)

/-- The source's block heuristic: difficulty at or above one trillion. -/
def BLOCK_DIFF_THRESHOLD : ℚ := 1000000000000

/-- Fleet maximum of the latest best-difficulty values; a device with no
value, or a falsy 0, is skipped (`if ... data['latest'].get('best_diff'):`),
and the running maximum starts at 0. -/
def currentMaxDiff (diffs : List (Option ℚ)) : ℚ :=
  diffs.foldl
    (fun m d =>
      match d with
      | some v => if v ≠ 0 then max m v else m
      | none => m)
    0

/-- `check_highest_diff`: when the fleet maximum strictly exceeds the
stored watermark and is positive, emit an event — flagged as a found block
when at or above `BLOCK_DIFF_THRESHOLD` — and advance the watermark;
otherwise no event and the watermark is unchanged. -/
def check_highest_diff (highest : ℚ) (diffs : List (Option ℚ)) :
    Option (Bool × ℚ) × ℚ :=
  let current := currentMaxDiff diffs
  if highest < current ∧ 0 < current then
    (some (decide (BLOCK_DIFF_THRESHOLD ≤ current), current), current)
  else
    (none, highest)

/-- `initialize_highest_diff`: seed the watermark from the Store's
`MAX(best_diff)` when that is present and truthy (nonzero). -/
def initialize_highest_diff (storeMax : Option ℚ) (highest : ℚ) : ℚ :=
  match storeMax with
  | some v => if v ≠ 0 then v else highest
  | none => highest

/-- The watermark after a sequence of alert checks. -/
def runHighestDiff (highest : ℚ) (checks : List (List (Option ℚ))) : ℚ :=
  checks.foldl (fun h c => (check_highest_diff h c).2) highest

/-! ## Clock-config get-or-create

Embeds `get_or_create_config` and the `clock_configs` table of
`src/database.py`: the table carries a `UNIQUE(frequency, core_voltage)`
constraint and an autoincrement id; the operation SELECTs the pair first
and INSERTs only on a miss. An INSERT that violates the constraint raises
(`Except.error`), as SQLite's IntegrityError does. -/

/-- One `clock_configs` row. -/
structure CfgRow where
  id : ℕ
  frequency : ℤ
  core_voltage : ℤ
deriving Repr, DecidableEq

/-- The `clock_configs` table with its autoincrement counter. -/
structure CfgTable where
  rows : List CfgRow
  nextId : ℕ
deriving Repr, DecidableEq

/-- The row predicate `frequency = ? AND core_voltage = ?`. -/
def matchesPair (f v : ℤ) (r : CfgRow) : Bool :=
  r.frequency = f ∧ r.core_voltage = v

/-- `SELECT id FROM clock_configs WHERE frequency = ? AND core_voltage = ?`. -/
def selectConfig (t : CfgTable) (f v : ℤ) : Option ℕ :=
  (t.rows.find? (matchesPair f v)).map (fun r => r.id)

/-- `INSERT INTO clock_configs (frequency, core_voltage) VALUES (?, ?)`
under the UNIQUE constraint: error when the pair already exists, else
append the row and return `lastrowid`. -/
def insertConfig (t : CfgTable) (f v : ℤ) : Except String (ℕ × CfgTable) :=
  if t.rows.any (matchesPair f v) then
    .error "UNIQUE constraint failed: clock_configs.frequency, clock_configs.core_voltage"
  else
    .ok (t.nextId, ⟨t.rows ++ [⟨t.nextId, f, v⟩], t.nextId + 1⟩)

/-- `get_or_create_config` as the source writes it: SELECT first, INSERT
only on a miss (read-then-insert). -/
def get_or_create_config (t : CfgTable) (f v : ℤ) : Except String (ℕ × CfgTable) :=
  match selectConfig t f v with
  | some cid => .ok (cid, t)
  | none => insertConfig t f v

/-- Modelled from the spec's words for comparison with the source: an
insert-or-select get-or-create — try the INSERT, and on a uniqueness
conflict fall back to SELECTing the existing id. -/
def specInsertOrSelectConfig (t : CfgTable) (f v : ℤ) : Except String (ℕ × CfgTable) :=
  match insertConfig t f v with
  | .ok r => .ok r
  | .error e =>
    match selectConfig t f v with
    | some cid => .ok (cid, t)
    | none => .error e

/-- The table invariant the UNIQUE constraint maintains: no two rows share
a `(frequency, core_voltage)` pair. -/
def uniquePairs (t : CfgTable) : Prop :=
  t.rows.Pairwise (fun r s => ¬(r.frequency = s.frequency ∧ r.core_voltage = s.core_voltage))

/-! ## Computed efficiency fields

Embeds `SystemInfo.efficiency_jth` and `SystemInfo.efficiency_ghw` from
`src/models.py`: guarded divisions returning 0.0 at the zero denominator. -/

/-- `efficiency_jth`: J/TH, `power / (hashRate / 1000)`, 0 when
`hashRate` is 0. -/
def efficiency_jth (hashRate power : ℚ) : ℚ :=
  if hashRate = 0 then 0 else power / (hashRate / 1000)

/-- `efficiency_ghw`: GH/W, `hashRate / power`, 0 when `power` is 0. -/
def efficiency_ghw (hashRate power : ℚ) : ℚ :=
  if power = 0 then 0 else hashRate / power

end BitaxeMonitor

namespace BitaxeMonitor

/-- C1: For the uptime history `[100, 200, 30, 150]`, `get_total_uptime`
reports `totalHours = (200 + 150)/3600` and `sessionHours = 150/3600`: the
decrease to 30 (below the 3600-second reboot threshold) closes a segment
whose maximum 200 joins the running total, and the final segment's last
uptime 150 is added after the scan. -/
theorem c1_session_reconstruction_example :
    get_total_uptime [100, 200, 30, 150] =
      some ((150 : ℚ) / 3600, ((200 : ℚ) + 150) / 3600) := by
  norm_num [get_total_uptime, uptimeScan, uptimeScanStep, segMax, MAX_RESTART_UPTIME,
    List.enum]

/-- C2 counterexample: for `[1000, 1500, 900, 1600]` the claim says the run
must not split (`totalHours = sessionHours = 1600/3600`), but 900 is below
the 3600-second threshold, so the code closes a segment: the reported total
is `3100/3600`, not `1600/3600`. -/
theorem c2_clock_skew_counterexample :
    get_total_uptime [1000, 1500, 900, 1600] ≠
      some ((1600 : ℚ) / 3600, (1600 : ℚ) / 3600) ∧
    get_total_uptime [1000, 1500, 900, 1600] =
      some ((1600 : ℚ) / 3600, (3100 : ℚ) / 3600) := by
  have heq : get_total_uptime [1000, 1500, 900, 1600] =
      some ((1600 : ℚ) / 3600, (3100 : ℚ) / 3600) := by
    norm_num [get_total_uptime, uptimeScan, uptimeScanStep, segMax, MAX_RESTART_UPTIME,
      List.enum]
  refine ⟨?_, heq⟩
  rw [heq]
  intro h
  have h2 := congrArg (fun o => (Option.getD o (0, 0)).2) h
  norm_num at h2

/-- C2 amended: in `[1000, 1500, 900, 1600]` the decrease to 900 IS below
the code's 3600-second reboot threshold, so a segment closes and
`totalHours = (1500 + 1600)/3600` with `sessionHours = 1600/3600`; a
decrease that is genuinely not below the threshold, as in
`[5000, 6000, 4000, 6500]`, does not split: total equals session equals
`6500/3600`. -/
theorem c2_clock_skew_amended :
    get_total_uptime [1000, 1500, 900, 1600] =
      some ((1600 : ℚ) / 3600, ((1500 : ℚ) + 1600) / 3600) ∧
    get_total_uptime [5000, 6000, 4000, 6500] =
      some ((6500 : ℚ) / 3600, (6500 : ℚ) / 3600) := by
  constructor <;>
    norm_num [get_total_uptime, uptimeScan, uptimeScanStep, segMax, MAX_RESTART_UPTIME,
      List.enum]

end BitaxeMonitor

namespace BitaxeMonitor

/-- C9: for a device with no stored samples the read-side queries return an
explicit absent value: `get_latest_metric` is `none`,
`get_device_health_status` is offline with no last-seen timestamp and a 0
reject rate, `get_total_uptime` on an empty history returns no result, and
a single-sample history makes session uptime equal total uptime. -/
theorem c9_no_data_is_absent (rows : List MetricRow) (device : String)
    (now thr : ℚ) (h : rows.filter (fun r => r.device_id = device) = []) :
    get_latest_metric rows device = none ∧
    get_device_health_status rows device now thr = ⟨false, none, 0, 0, 0⟩ ∧
    get_total_uptime [] = none ∧
    ∀ u : ℤ, get_total_uptime [u] = some ((u : ℚ) / 3600, (u : ℚ) / 3600) := by
  have hl : get_latest_metric rows device = none := by
    unfold get_latest_metric
    rw [h]
    rfl
  refine ⟨hl, ?_, rfl, ?_⟩
  · unfold get_device_health_status
    rw [hl]
  · intro u
    unfold get_total_uptime
    simp only [uptimeScan, uptimeScanStep, List.enum, List.enumFrom, List.foldl,
      segMax, MAX_RESTART_UPTIME]
    split
    · simp
    · simp

/-- Witness for C9 at the empty store and device `"m1"`. -/
theorem c9_witness :
    ([] : List MetricRow).filter (fun r => r.device_id = "m1") = [] ∧
    get_latest_metric [] "m1" = none ∧
    get_device_health_status [] "m1" 0 10 = ⟨false, none, 0, 0, 0⟩ := by
  refine ⟨rfl, ?_, ?_⟩
  · exact (c9_no_data_is_absent [] "m1" 0 10 rfl).1
  · exact (c9_no_data_is_absent [] "m1" 0 10 rfl).2.1

/-- C10: the computed efficiency fields are total and never divide by zero:
`efficiency_jth = power / (hashRate / 1000)` when `hashRate` is nonzero and
0 when it is zero, and `efficiency_ghw = hashRate / power` when `power` is
nonzero and 0 when it is zero. -/
theorem c10_efficiency_total (hashRate power : ℚ) :
    (hashRate ≠ 0 → efficiency_jth hashRate power = power / (hashRate / 1000)) ∧
    (hashRate = 0 → efficiency_jth hashRate power = 0) ∧
    (power ≠ 0 → efficiency_ghw hashRate power = hashRate / power) ∧
    (power = 0 → efficiency_ghw hashRate power = 0) := by
  refine ⟨?_, ?_, ?_, ?_⟩ <;> intro h <;> simp [efficiency_jth, efficiency_ghw, h]

/-- Witness for C10 at `hashRate = 500`, `power = 10` (and the zero cases). -/
theorem c10_witness :
    efficiency_jth 500 10 = 10 / (500 / 1000) ∧ efficiency_jth 0 10 = 0 ∧
    efficiency_ghw 500 10 = 500 / 10 ∧ efficiency_ghw 500 0 = 0 :=
  ⟨(c10_efficiency_total 500 10).1 (by norm_num),
   (c10_efficiency_total 0 10).2.1 rfl,
   (c10_efficiency_total 500 10).2.2.1 (by norm_num),
   (c10_efficiency_total 500 0).2.2.2 rfl⟩

end BitaxeMonitor

namespace BitaxeMonitor

/-- C4: difficulty parsing is suffix-correct (`"6.13 M"` parses to
6130000, `"27.21M"` to 27210000, a bare number passes through, suffixes
K/M/G/T are case-insensitive with optional space), an unparseable or empty
value normalizes to absent, and re-parsing a numeric output returns the
same value (idempotence). -/
theorem c4_parse_difficulty :
    parse_difficulty (.vstr "6.13 M") = some 6130000 ∧
    parse_difficulty (.vstr "27.21M") = some 27210000 ∧
    parse_difficulty (.vnum (1234567 / 100)) = some (1234567 / 100) ∧
    parse_difficulty (.vstr "") = none ∧
    parse_difficulty (.vstr "not a number") = none ∧
    parse_difficulty .vnone = none ∧
    parse_difficulty (.vstr "6.13 m") = some 6130000 ∧
    parse_difficulty (.vstr "2k") = some 2000 ∧
    parse_difficulty (.vstr "3 G") = some 3000000000 ∧
    parse_difficulty (.vstr "4t") = some 4000000000000 ∧
    (∀ v x, parse_difficulty v = some x → parse_difficulty (.vnum x) = some x) := by
  refine ⟨?_, ?_, ?_, ?_, ?_, ?_, ?_, ?_, ?_, ?_, ?_⟩ <;>
    first
    | (intro v x h; simp [parse_difficulty])
    | (simp +decide [parse_difficulty, pyUpper, pyStrip, lastIs, pyFloatChars,
        parseUnsigned, digitsVal]
       try norm_num)

/-- Witness for C4's idempotence conjunct at the parsed value of `"2k"`. -/
theorem c4_parse_difficulty_witness :
    parse_difficulty (PyVal.vnum 2000) = some 2000 :=
  c4_parse_difficulty.2.2.2.2.2.2.2.2.2.2 (PyVal.vstr "2k") 2000
    c4_parse_difficulty.2.2.2.2.2.2.2.1

end BitaxeMonitor

namespace BitaxeMonitor

/-- C5 counterexample: for the bucket averages `[100, 200]` the claim says
`variancePct == 50.0`, but the source computes
`(max - min) / mean * 100 = (200 - 100) / 150 * 100 = 66.7` (rounded to one
decimal), not 50. -/
theorem c5_variance_counterexample :
    variance_for_timeframe [100, 200] = some (667 / 10, 2) ∧
    (variance_for_timeframe [100, 200]).map Prod.fst ≠ some 50 := by
  have h1 : variance_for_timeframe [100, 200] = some (667 / 10, 2) := by
    norm_num [variance_for_timeframe, bucketsMean, pyRound1]
  refine ⟨h1, ?_⟩
  rw [h1]
  norm_num

/-- C5 amended: per timeframe `variancePct = (max - min) / mean * 100`
(0 when the mean is not positive): four equal buckets give 0, the buckets
`[100, 200]` give 66.7 (mean 150), and a timeframe with fewer than two
valid buckets reports no data rather than a spurious 0% variance. -/
theorem c5_variance_amended :
    (∀ h : ℚ, variance_for_timeframe [h, h, h, h] = some (0, 4)) ∧
    variance_for_timeframe [100, 200] = some (667 / 10, 2) ∧
    bucketsMean [100, 200] = 150 ∧
    variance_for_timeframe [] = none ∧
    (∀ x : ℚ, variance_for_timeframe [x] = none) := by
  refine ⟨?_, by norm_num [variance_for_timeframe, bucketsMean, pyRound1],
    by norm_num [bucketsMean], rfl, fun x => by simp [variance_for_timeframe]⟩
  intro h
  simp [variance_for_timeframe, bucketsMean, pyRound1]

end BitaxeMonitor

namespace BitaxeMonitor

/-- The anchor is absent exactly for an empty history. -/
theorem anchorOf_eq_none (rows : List TrendRow) :
    anchorOf rows = none ↔ rows = [] := by
  cases rows with
  | nil => simp [anchorOf]
  | cons r rs =>
    simp only [anchorOf]
    cases anchorOf rs <;> simp

/-- Every sample's timestamp is at most the anchor. -/
theorem anchorOf_le (rows : List TrendRow) :
    ∀ a, anchorOf rows = some a → ∀ r ∈ rows, r.timestamp ≤ a := by
  induction rows with
  | nil => simp [anchorOf]
  | cons r rs ih =>
    intro a ha s hs
    simp only [anchorOf] at ha
    cases hrec : anchorOf rs with
    | none =>
      rw [hrec] at ha
      simp only [Option.some.injEq] at ha
      have hnil : rs = [] := (anchorOf_eq_none rs).1 hrec
      subst hnil
      rcases List.mem_cons.1 hs with h | h
      · subst h; exact le_of_eq ha
      · cases h
    | some b =>
      rw [hrec] at ha
      simp only [Option.some.injEq] at ha
      subst ha
      rcases List.mem_cons.1 hs with h | h
      · subst h; exact le_max_left _ _
      · exact le_trans (ih b hrec s h) (le_max_right _ _)

/-- Summing the indicator of `c = i` over `i < b` counts whether `c` lies
in `[0, b)`. -/
theorem sum_indicator_int (c : ℤ) (b : ℕ) :
    (∑ i ∈ Finset.range b, if c = (i : ℤ) then 1 else 0) =
      if 0 ≤ c ∧ c < (b : ℤ) then 1 else 0 := by
  by_cases h : 0 ≤ c ∧ c < (b : ℤ)
  · rw [if_pos h]
    obtain ⟨h0, hlt⟩ := h
    lift c to ℕ using h0 with k
    have hk : k < b := by exact_mod_cast hlt
    simp only [Nat.cast_inj]
    rw [Finset.sum_ite_eq]
    simp [Finset.mem_range, hk]
  · rw [if_neg h]
    apply Finset.sum_eq_zero
    intro i hi
    rw [if_neg]
    intro hc
    exact h ⟨by omega, by subst hc; exact_mod_cast Finset.mem_range.1 hi⟩

/-- Partitioning a count by an integer key: summing the per-key counts over
keys `0 ≤ i < b` counts the elements whose key lies in `[0, b)`. -/
theorem sum_countP_range (l : List TrendRow) (f : TrendRow → ℤ) (b : ℕ) :
    (∑ i ∈ Finset.range b, l.countP (fun r => f r = (i : ℤ))) =
      l.countP (fun r => 0 ≤ f r ∧ f r < (b : ℤ)) := by
  induction l with
  | nil => simp
  | cons r l ih =>
    simp only [List.countP_cons]
    rw [Finset.sum_add_distrib, ih]
    congr 1
    simp only [decide_eq_true_eq]
    exact sum_indicator_int (f r) b

/-- A sample strictly inside the lookback window gets a bucket index in
`[0, buckets)` without any clamping. -/
theorem bucketIdx_range (a minutes ts : ℚ) (b : ℕ) (hb : 0 < b) (hm : 0 < minutes)
    (h1 : ts ≤ a) (h2 : a - minutes < ts) :
    0 ≤ bucketIdx a (minutes / (b : ℚ)) ts ∧
      bucketIdx a (minutes / (b : ℚ)) ts < (b : ℤ) := by
  have hbq : (0 : ℚ) < (b : ℚ) := by exact_mod_cast hb
  have hw : 0 < minutes / (b : ℚ) := div_pos hm hbq
  have hd0 : 0 ≤ a - ts := by linarith
  have hdm : a - ts < minutes := by linarith
  have hq0 : 0 ≤ (a - ts) / (minutes / (b : ℚ)) := div_nonneg hd0 (le_of_lt hw)
  unfold bucketIdx sqliteCastInt
  rw [if_pos hq0]
  refine ⟨Int.floor_nonneg.2 hq0, ?_⟩
  rw [Int.floor_lt]
  push_cast
  rw [div_lt_iff₀ hw]
  calc a - ts < minutes := hdm
    _ = (b : ℚ) * (minutes / (b : ℚ)) := by field_simp

/-- A sample at exactly the cutoff timestamp gets bucket index `buckets`. -/
theorem bucketIdx_at_cutoff (a minutes : ℚ) (b : ℕ) (hb : 0 < b) (hm : 0 < minutes) :
    bucketIdx a (minutes / (b : ℚ)) (a - minutes) = (b : ℤ) := by
  have hbq : (0 : ℚ) < (b : ℚ) := by exact_mod_cast hb
  unfold bucketIdx sqliteCastInt
  have h1 : a - (a - minutes) = minutes := by ring
  rw [h1]
  have h2 : minutes / (minutes / (b : ℚ)) = (b : ℚ) := by
    field_simp
  rw [h2, if_pos (le_of_lt hbq)]
  exact Int.floor_natCast b

/-- C3 counterexample: with samples at minutes 100 and 40, lookback 60 and
6 buckets, both samples lie in the SQL window (`timestamp >= cutoff = 40`),
but the per-bucket counts sum to 1, not 2: the sample at the window edge
gets index `(100 - 40) / 10 = 6`, outside `[0, 5]`, and the
`bucket >= 0 AND bucket < 6` filter discards it instead of clamping it. -/
theorem c3_bucketing_counterexample :
    anchorOf [⟨100, some 500⟩, ⟨40, some 500⟩] = some 100 ∧
    (([⟨100, some 500⟩, ⟨40, some 500⟩] : List TrendRow).filter
      (fun r => r.hashrate.isSome ∧ (100 : ℚ) - 60 ≤ r.timestamp)).length = 2 ∧
    (∑ i ∈ Finset.range 6,
      bucketCountAt [⟨100, some 500⟩, ⟨40, some 500⟩] 100 60 6 i) = 1 ∧
    bucketIdx 100 (60 / 6) 40 = 6 := by
  refine ⟨?_, ?_, ?_, ?_⟩
  · simp [anchorOf]
    norm_num [max_def]
  · norm_num [List.filter]
  · norm_num [Finset.sum_range_succ, bucketCountAt, windowRows, bucketIdx,
      sqliteCastInt, List.filter]
  · norm_num [bucketIdx, sqliteCastInt]

/-- C3 amended: for every device history, lookback and bucket count, each
sample STRICTLY inside the window `(anchor - lookback, anchor]` falls into
exactly one bucket index in `[0, bucketCount - 1]` (the floor formula needs
no clamping there), and the per-bucket sample counts sum to the number of
samples in that half-open window; a sample at exactly `anchor - lookback`
is in the SQL window but receives index `bucketCount` and is discarded by
the range filter, not clamped. -/
theorem c3_bucketing_amended (rows : List TrendRow) (a minutes : ℚ) (b : ℕ)
    (ha : anchorOf rows = some a) (hm : 0 < minutes) (hb : 0 < b) :
    (∀ r ∈ rows, a - minutes < r.timestamp →
      0 ≤ bucketIdx a (minutes / (b : ℚ)) r.timestamp ∧
        bucketIdx a (minutes / (b : ℚ)) r.timestamp < (b : ℤ)) ∧
    (∑ i ∈ Finset.range b, bucketCountAt rows a minutes b i) =
      (rows.filter (fun r => r.hashrate.isSome ∧ a - minutes < r.timestamp)).length ∧
    (∀ r ∈ rows, r.timestamp = a - minutes →
      bucketIdx a (minutes / (b : ℚ)) r.timestamp = (b : ℤ)) := by
  have hle := anchorOf_le rows a ha
  refine ⟨?_, ?_, ?_⟩
  · intro r hr hstrict
    exact bucketIdx_range a minutes r.timestamp b hb hm (hle r hr) hstrict
  · calc ∑ i ∈ Finset.range b, bucketCountAt rows a minutes b i
        = ∑ i ∈ Finset.range b, (windowRows rows a minutes).countP
            (fun r => bucketIdx a (minutes / (b : ℚ)) r.timestamp = (i : ℤ)) :=
          Finset.sum_congr rfl (fun i _ =>
            (List.countP_eq_length_filter _ _).symm)
      _ = (windowRows rows a minutes).countP
            (fun r => 0 ≤ bucketIdx a (minutes / (b : ℚ)) r.timestamp ∧
              bucketIdx a (minutes / (b : ℚ)) r.timestamp < (b : ℤ)) :=
          sum_countP_range _ _ b
      _ = (windowRows rows a minutes).countP
            (fun r => a - minutes < r.timestamp) := by
          apply List.countP_congr
          intro r hrW
          have hmem := List.mem_filter.1 hrW
          have hts_le : r.timestamp ≤ a := hle r hmem.1
          have hwin : a - minutes ≤ r.timestamp := by
            have := hmem.2
            simp only [decide_eq_true_eq] at this
            exact this.2
          by_cases hst : a - minutes < r.timestamp
          · simp [hst, bucketIdx_range a minutes r.timestamp b hb hm hts_le hst]
          · have hts_eq : r.timestamp = a - minutes :=
              le_antisymm (not_lt.1 hst) hwin
            simp [hst, hts_eq, bucketIdx_at_cutoff a minutes b hb hm]
      _ = rows.countP
            (fun r => (a - minutes < r.timestamp) &&
              (r.hashrate.isSome ∧ a - minutes ≤ r.timestamp)) := by
          unfold windowRows
          rw [List.countP_filter]
      _ = rows.countP (fun r => r.hashrate.isSome ∧ a - minutes < r.timestamp) := by
          apply List.countP_congr
          intro r _
          by_cases h1 : r.hashrate.isSome <;> by_cases h2 : a - minutes < r.timestamp <;>
            simp [h1, h2, le_of_lt]
      _ = (rows.filter
            (fun r => r.hashrate.isSome ∧ a - minutes < r.timestamp)).length :=
          List.countP_eq_length_filter _ _
  · intro r hr heq
    rw [heq]
    exact bucketIdx_at_cutoff a minutes b hb hm

/-- Witness for C3's amended theorem on a concrete two-sample history. -/
theorem c3_bucketing_witness :
    anchorOf [⟨100, some 500⟩, ⟨70, some 500⟩] = some 100 ∧
    (0 : ℚ) < 60 ∧ 0 < 6 ∧
    (∑ i ∈ Finset.range 6,
      bucketCountAt [⟨100, some 500⟩, ⟨70, some 500⟩] 100 60 6 i) =
      (([⟨100, some 500⟩, ⟨70, some 500⟩] : List TrendRow).filter
        (fun r => r.hashrate.isSome ∧ (100 : ℚ) - 60 < r.timestamp)).length := by
  have hanchor : anchorOf [⟨100, some 500⟩, ⟨70, some 500⟩] = some 100 := by
    simp [anchorOf]
    norm_num [max_def]
  exact ⟨hanchor, by norm_num, by norm_num,
    (c3_bucketing_amended _ 100 60 6 hanchor (by norm_num) (by norm_num)).2.1⟩

end BitaxeMonitor

namespace BitaxeMonitor

/-- C6: offline alerting is edge-triggered. An alert is emitted exactly for
devices offline now and absent from the stored set, a recovery exactly for
stored devices no longer offline, and the current set replaces the stored
set; consequently a device offline in three consecutive checks (and not
offline before) produces exactly one alert — on the first check — and no
recovery while it stays offline. -/
theorem c6_offline_hysteresis (prev : List String) (h1 h2 h3 : List (String × Bool))
    (d : String) (hd0 : d ∉ prev) (hn : (h1.map Prod.fst).Nodup)
    (hd1 : d ∈ currentOffline h1) (hd2 : d ∈ currentOffline h2)
    (hd3 : d ∈ currentOffline h3) :
    (offlineStep prev h1).1.count d = 1 ∧
    (offlineStep (offlineStep prev h1).2.2 h2).1.count d = 0 ∧
    (offlineStep (offlineStep (offlineStep prev h1).2.2 h2).2.2 h3).1.count d = 0 ∧
    d ∉ (offlineStep prev h1).2.1 ∧
    d ∉ (offlineStep (offlineStep prev h1).2.2 h2).2.1 ∧
    d ∉ (offlineStep (offlineStep (offlineStep prev h1).2.2 h2).2.2 h3).2.1 ∧
    (∀ p h e, e ∈ (offlineStep p h).1 ↔ e ∈ currentOffline h ∧ e ∉ p) ∧
    (∀ p h e, e ∈ (offlineStep p h).2.1 ↔ e ∈ p ∧ e ∉ currentOffline h) ∧
    (∀ p h, (offlineStep p h).2.2 = currentOffline h) := by
  have halert : ∀ p h e, e ∈ (offlineStep p h).1 ↔ e ∈ currentOffline h ∧ e ∉ p := by
    intro p h e
    simp [offlineStep, List.mem_filter]
  have hrec : ∀ p h e, e ∈ (offlineStep p h).2.1 ↔ e ∈ p ∧ e ∉ currentOffline h := by
    intro p h e
    simp [offlineStep, List.mem_filter]
  have hstate : ∀ p h, (offlineStep p h).2.2 = currentOffline h := fun p h => rfl
  have hcur_nodup : (currentOffline h1).Nodup := by
    have hsub : List.Sublist (currentOffline h1) (h1.map Prod.fst) := by
      unfold currentOffline
      exact List.Sublist.map Prod.fst (List.filter_sublist h1)
    exact hn.sublist hsub
  have ha1_nodup : (offlineStep prev h1).1.Nodup := by
    simpa [offlineStep] using hcur_nodup.filter _
  have hmem1 : d ∈ (offlineStep prev h1).1 := (halert prev h1 d).2 ⟨hd1, hd0⟩
  refine ⟨?_, ?_, ?_, ?_, ?_, ?_, halert, hrec, hstate⟩
  · exact List.count_eq_one_of_mem ha1_nodup hmem1
  · rw [List.count_eq_zero]
    intro hmem
    exact ((halert _ h2 d).1 hmem).2 (by rw [hstate]; exact hd1)
  · rw [List.count_eq_zero]
    intro hmem
    exact ((halert _ h3 d).1 hmem).2 (by rw [hstate]; exact hd2)
  · intro hmem
    exact hd0 ((hrec prev h1 d).1 hmem).1
  · intro hmem
    exact ((hrec _ h2 d).1 hmem).2 hd2
  · intro hmem
    exact ((hrec _ h3 d).1 hmem).2 hd3

/-- Witness for C6 with device `"m1"` offline in every check and an empty
initial stored set. -/
theorem c6_offline_hysteresis_witness :
    (offlineStep [] [("m1", false)]).1.count "m1" = 1 ∧
    (offlineStep (offlineStep [] [("m1", false)]).2.2 [("m1", false)]).1.count "m1" = 0 := by
  have h := c6_offline_hysteresis [] [("m1", false)] [("m1", false)] [("m1", false)] "m1"
    (by simp) (by simp) (by simp [currentOffline]) (by simp [currentOffline])
    (by simp [currentOffline])
  exact ⟨h.1, h.2.1⟩

/-- Helper: one alert check never lowers the watermark. -/
theorem check_highest_diff_mono (h : ℚ) (diffs : List (Option ℚ)) :
    h ≤ (check_highest_diff h diffs).2 := by
  unfold check_highest_diff
  by_cases hc : h < currentMaxDiff diffs ∧ 0 < currentMaxDiff diffs
  · simp only [hc, if_pos]
    exact le_of_lt hc.1
  · simp only [hc, if_neg, not_false_iff]
    exact le_refl h

/-- Helper: the watermark is non-decreasing across any run of checks. -/
theorem runHighestDiff_mono (checks : List (List (Option ℚ))) :
    ∀ h : ℚ, h ≤ runHighestDiff h checks := by
  induction checks with
  | nil => intro h; exact le_refl h
  | cons c cs ih =>
    intro h
    calc h ≤ (check_highest_diff h c).2 := check_highest_diff_mono h c
      _ ≤ runHighestDiff (check_highest_diff h c).2 cs := ih _
      _ = runHighestDiff h (c :: cs) := rfl

/-- C7: the record-difficulty watermark is monotonically non-decreasing
across checks; an event is emitted exactly when the fleet maximum exceeds
the stored watermark and is positive, flagged as a found block exactly when
it reaches the trillion threshold; the watermark is seeded from the Store's
nonzero `MAX(best_diff)`, after which a check whose fleet maximum does not
exceed the seed announces nothing. -/
theorem c7_highest_diff_watermark (h : ℚ) (diffs : List (Option ℚ)) :
    h ≤ (check_highest_diff h diffs).2 ∧
    (∀ checks, h ≤ runHighestDiff h checks) ∧
    ((check_highest_diff h diffs).1.isSome ↔
      h < currentMaxDiff diffs ∧ 0 < currentMaxDiff diffs) ∧
    (∀ e, (check_highest_diff h diffs).1 = some e →
      (e.1 = true ↔ BLOCK_DIFF_THRESHOLD ≤ currentMaxDiff diffs) ∧
        e.2 = currentMaxDiff diffs ∧
        (check_highest_diff h diffs).2 = currentMaxDiff diffs) ∧
    (∀ m h0 : ℚ, m ≠ 0 → initialize_highest_diff (some m) h0 = m) ∧
    (∀ (m : ℚ) (ds : List (Option ℚ)), currentMaxDiff ds ≤ m →
      (check_highest_diff m ds).1 = none) := by
  refine ⟨check_highest_diff_mono h diffs, fun checks => runHighestDiff_mono checks h,
    ?_, ?_, ?_, ?_⟩
  · by_cases hc : h < currentMaxDiff diffs ∧ 0 < currentMaxDiff diffs
    · simp only [check_highest_diff, if_pos hc]
      simpa using hc
    · simp only [check_highest_diff, if_neg hc]
      simpa using hc
  · intro e he
    simp only [check_highest_diff] at he ⊢
    by_cases hc : h < currentMaxDiff diffs ∧ 0 < currentMaxDiff diffs
    · rw [if_pos hc] at he ⊢
      simp only [Option.some.injEq] at he
      subst he
      simp
    · rw [if_neg hc] at he
      exact Option.noConfusion he
  · intro m h0 hm
    simp [initialize_highest_diff, hm]
  · intro m ds hle
    unfold check_highest_diff
    rw [if_neg]
    intro hc
    exact absurd hle (not_le.2 hc.1)

/-- Witness for C7: seeding from a stored record of 5,000,000, a check that
only re-observes it stays silent, and a check from watermark 0 does not
lower it. -/
theorem c7_highest_diff_watermark_witness :
    initialize_highest_diff (some 5000000) 0 = 5000000 ∧
    (check_highest_diff 5000000 [some 5000000, none]).1 = none ∧
    (0 : ℚ) ≤ (check_highest_diff 0 [some 5000000, none]).2 := by
  have hcur : currentMaxDiff [some 5000000, none] = 5000000 := by
    norm_num [currentMaxDiff, max_def]
  refine ⟨(c7_highest_diff_watermark 0 []).2.2.2.2.1 5000000 0 (by norm_num),
    (c7_highest_diff_watermark 0 []).2.2.2.2.2 5000000 [some 5000000, none]
      (le_of_eq hcur), (c7_highest_diff_watermark 0 [some 5000000, none]).1⟩

/-- C8 counterexample: the source's `get_or_create_config` is
read-then-insert, and the UNIQUE constraint makes a lost race raise rather
than return the existing id. Both racers SELECT the empty table and miss;
the first INSERT succeeds with id 1; the second INSERT fails the
constraint, while the spec's insert-or-select would have returned id 1. -/
theorem c8_race_counterexample :
    selectConfig ⟨[], 1⟩ 500 1200 = none ∧
    insertConfig ⟨[], 1⟩ 500 1200 = .ok (1, ⟨[⟨1, 500, 1200⟩], 2⟩) ∧
    (insertConfig ⟨[⟨1, 500, 1200⟩], 2⟩ 500 1200).isOk = false ∧
    specInsertOrSelectConfig ⟨[⟨1, 500, 1200⟩], 2⟩ 500 1200 =
      .ok (1, ⟨[⟨1, 500, 1200⟩], 2⟩) := by
  refine ⟨rfl, ?_, ?_, ?_⟩ <;>
    simp [insertConfig, matchesPair, Except.isOk, Except.toBool,
      specInsertOrSelectConfig, selectConfig, List.find?]

/-- C8 amended: sequentially, `get_or_create_config` returns the existing
id when the pair exists (table unchanged) and otherwise inserts a fresh row
and returns its id; a repeated call returns the same id; the uniqueness
invariant is preserved, and under a race the UNIQUE constraint makes the
losing duplicate INSERT raise — so no duplicate pair can be created, though
the loser gets an error instead of the existing id (the implementation is
read-then-insert guarded by the constraint, not insert-or-select). -/
theorem c8_get_or_create_amended (t : CfgTable) (f v : ℤ) :
    (∀ cid, selectConfig t f v = some cid →
      get_or_create_config t f v = .ok (cid, t)) ∧
    (selectConfig t f v = none →
      get_or_create_config t f v =
        .ok (t.nextId, ⟨t.rows ++ [⟨t.nextId, f, v⟩], t.nextId + 1⟩)) ∧
    (∀ t1 cid, get_or_create_config t f v = .ok (cid, t1) →
      get_or_create_config t1 f v = .ok (cid, t1)) ∧
    (uniquePairs t → ∀ t1 cid, get_or_create_config t f v = .ok (cid, t1) →
      uniquePairs t1) ∧
    (∀ cid t1, insertConfig t f v = .ok (cid, t1) →
      (insertConfig t1 f v).isOk = false) := by
  have hnone_any : selectConfig t f v = none → t.rows.any (matchesPair f v) = false := by
    intro hsel
    rw [List.any_eq_false]
    intro r hr
    simp only [selectConfig, Option.map_eq_none', List.find?_eq_none] at hsel
    exact fun hm => hsel r hr hm
  have hinsert_ok : selectConfig t f v = none →
      insertConfig t f v =
        .ok (t.nextId, ⟨t.rows ++ [⟨t.nextId, f, v⟩], t.nextId + 1⟩) := by
    intro hsel
    unfold insertConfig
    rw [hnone_any hsel]
    simp
  have hmatch_new : matchesPair f v ⟨t.nextId, f, v⟩ = true := by
    simp [matchesPair]
  refine ⟨?_, ?_, ?_, ?_, ?_⟩
  · intro cid hsel
    unfold get_or_create_config
    rw [hsel]
  · intro hsel
    unfold get_or_create_config
    rw [hsel]
    exact hinsert_ok hsel
  · intro t1 cid hcall
    unfold get_or_create_config at hcall
    cases hsel : selectConfig t f v with
    | some cid0 =>
      rw [hsel] at hcall
      simp only [Except.ok.injEq, Prod.mk.injEq] at hcall
      obtain ⟨hcid, ht⟩ := hcall
      subst hcid; subst ht
      unfold get_or_create_config
      rw [hsel]
    | none =>
      rw [hsel, hinsert_ok hsel] at hcall
      simp only [Except.ok.injEq, Prod.mk.injEq] at hcall
      obtain ⟨hcid, ht⟩ := hcall
      subst hcid
      subst ht
      unfold get_or_create_config
      have hsel1 : selectConfig
          (⟨t.rows ++ [⟨t.nextId, f, v⟩], t.nextId + 1⟩ : CfgTable) f v =
            some t.nextId := by
        simp only [selectConfig, List.find?_append]
        have h1 : t.rows.find? (matchesPair f v) = none := by
          simpa [selectConfig, Option.map_eq_none'] using hsel
        rw [h1]
        simp [hmatch_new]
      rw [hsel1]
  · intro hu t1 cid hcall
    unfold get_or_create_config at hcall
    cases hsel : selectConfig t f v with
    | some cid0 =>
      rw [hsel] at hcall
      simp only [Except.ok.injEq, Prod.mk.injEq] at hcall
      rw [← hcall.2]
      exact hu
    | none =>
      rw [hsel, hinsert_ok hsel] at hcall
      simp only [Except.ok.injEq, Prod.mk.injEq] at hcall
      rw [← hcall.2]
      unfold uniquePairs at hu ⊢
      rw [List.pairwise_append]
      refine ⟨hu, by simp, ?_⟩
      intro r hr b hb
      simp only [List.mem_singleton] at hb
      subst hb
      simp only [selectConfig, Option.map_eq_none', List.find?_eq_none] at hsel
      have := hsel r hr
      simp only [matchesPair, decide_eq_true_eq] at this
      simpa using this
  · intro cid t1 hins
    unfold insertConfig at hins
    by_cases hany : t.rows.any (matchesPair f v) = true
    · rw [if_pos hany] at hins
      exact Except.noConfusion hins
    · rw [if_neg hany] at hins
      simp only [Except.ok.injEq, Prod.mk.injEq] at hins
      obtain ⟨hcid, ht⟩ := hins
      subst ht
      unfold insertConfig
      rw [if_pos]
      · rfl
      · simp [hmatch_new]

/-- Witness for C8's amended theorem: creating `(500, 1200)` in an empty
table yields id 1, a second sequential call returns the same id with the
table unchanged, and the uniqueness invariant holds afterwards. -/
theorem c8_get_or_create_witness :
    get_or_create_config ⟨[], 1⟩ 500 1200 = .ok (1, ⟨[⟨1, 500, 1200⟩], 2⟩) ∧
    get_or_create_config ⟨[⟨1, 500, 1200⟩], 2⟩ 500 1200 =
      .ok (1, ⟨[⟨1, 500, 1200⟩], 2⟩) ∧
    uniquePairs ⟨[⟨1, 500, 1200⟩], 2⟩ := by
  have h1 : get_or_create_config ⟨[], 1⟩ 500 1200 =
      .ok (1, ⟨[⟨1, 500, 1200⟩], 2⟩) :=
    (c8_get_or_create_amended ⟨[], 1⟩ 500 1200).2.1 rfl
  refine ⟨h1, (c8_get_or_create_amended ⟨[], 1⟩ 500 1200).2.2.1 _ _ h1,
    (c8_get_or_create_amended ⟨[], 1⟩ 500 1200).2.2.2.1 ?_ _ _ h1⟩
  simp [uniquePairs]

end BitaxeMonitor
